import Mathlib

/-!
# Task Management API — shallow embedding and verification

This file embeds the CRUD task service of `src/task-api` (FastAPI + SQLModel,
`main.py` and `models.py`) in Lean 4 and proves properties of its
request/response contract.

Modelling decisions, each justified by the source:

* The PostgreSQL table is modelled as an insertion-ordered list of records plus
  an auto-increment primary-key counter (`Store`).  The endpoints issue plain
  `select(Task)` queries with no `ORDER BY`; the spec and tests take the
  returned order to be creation (insertion) order, which the list preserves.
* Timestamps (`datetime.utcnow()`) are modelled as natural numbers; every
  mutating request carries the clock value `now` at which it runs.  At
  creation `created_at` and `updated_at` are both populated by
  `default_factory=datetime.utcnow` on the same object construction, modelled
  as the same `now`.
* Pydantic request validation (the `Field(...)` constraints declared on
  `TaskBase` and `TaskUpdate` in `models.py`) runs before the handler body and
  collects one error per offending field; we model it as a per-field check
  returning the list of offending field names.  A raw payload field is
  `none` when absent from the JSON body (`dict(exclude_unset=True)` semantics:
  an absent field is not applied).  String length is `String.length`.
* The handler functions keep their source names: `create_task`, `list_tasks`,
  `read_task`, `update_task`, `delete_task`, `get_stats`.  A handler that can
  raise `HTTPException` or be preempted by a 422 returns `Except ApiError _`;
  an error result leaves the store untouched (the session never committed).
* The primary key is unique in the database; `update` writes through
  `session.get` + `setattr` on the single fetched row and `delete` removes
  that single row.  We model the row replacement by mapping over the list
  (all rows with the key) and the removal by filtering — identical to the
  single-row operation whenever ids are unique, which holds on every
  reachable store.
-/

namespace TaskApi

/-- The three legal values of the `status` column, from the
`regex="^(pending|in_progress|completed)$"` constraint in `models.py`. -/
def validStatuses : List String := ["pending", "in_progress", "completed"]

/-- A persisted task row: the fields of `TaskBase` plus the database-managed
`id`, `created_at`, `updated_at` of the `Task` table model. -/
structure Task where
  id : Nat
  title : String
  description : Option String
  status : String
  priority : Int
  created_at : Nat
  updated_at : Nat
deriving DecidableEq, Repr

/-- The database: rows in insertion order plus the auto-increment primary-key
counter (next id to assign; PostgreSQL sequences start at 1 and do not reuse
values after deletes). -/
structure Store where
  tasks : List Task
  nextId : Nat
deriving DecidableEq, Repr

/-- The store of a freshly created table. -/
def initialStore : Store := ⟨[], 1⟩

/-- Raw JSON body of `POST /tasks` before validation (`TaskCreate`): every
field may be absent (`title` is required, but a client can still omit it —
validation then fails). -/
structure RawCreate where
  title : Option String
  description : Option String
  status : Option String
  priority : Option Int
deriving DecidableEq, Repr

/-- Raw JSON body of `PUT /tasks/{id}` before validation (`TaskUpdate`):
all fields optional; `none` models a field absent from the body. -/
structure RawUpdate where
  title : Option String
  description : Option String
  status : Option String
  priority : Option Int
deriving DecidableEq, Repr

/-- The two error kinds of the service: Pydantic validation failure
(HTTP 422, carrying the offending field names) and `HTTPException 404`
(carrying its `detail` message). -/
inductive ApiError where
  | validation (fields : List String)
  | notFound (msg : String)
deriving DecidableEq, Repr

/-- The `detail` string of every 404 raised in `main.py`. -/
def notFoundMsg (task_id : Nat) : String :=
  s!"Task with ID {task_id} not found"

/-- Offending field names of a create payload, per the `TaskBase` constraints:
`title` required with `min_length=1, max_length=200`; `description` optional
with `max_length=2000`; `status` optional matching the three-value regex;
`priority` optional with `ge=1, le=3`. -/
def createErrors (p : RawCreate) : List String :=
  (match p.title with
    | none => ["title"]
    | some t => if t.length < 1 ∨ 200 < t.length then ["title"] else []) ++
  (match p.description with
    | none => []
    | some d => if 2000 < d.length then ["description"] else []) ++
  (match p.status with
    | none => []
    | some s => if s ∈ validStatuses then [] else ["status"]) ++
  (match p.priority with
    | none => []
    | some n => if n < 1 ∨ 3 < n then ["priority"] else [])

/-- Offending field names of an update payload, per the `TaskUpdate`
constraints (same per-field constraints as create, every field optional). -/
def updateErrors (u : RawUpdate) : List String :=
  (match u.title with
    | none => []
    | some t => if t.length < 1 ∨ 200 < t.length then ["title"] else []) ++
  (match u.description with
    | none => []
    | some d => if 2000 < d.length then ["description"] else []) ++
  (match u.status with
    | none => []
    | some s => if s ∈ validStatuses then [] else ["status"]) ++
  (match u.priority with
    | none => []
    | some n => if n < 1 ∨ 3 < n then ["priority"] else [])

/-- `POST /tasks` (`create_task` in `main.py`): Pydantic validates the body
against `TaskCreate`; on success the handler builds a `Task` row (defaults
`status="pending"`, `priority=1` applied for absent optional fields), the
database assigns the next id and both timestamps, and the row is committed
at the end of the list. -/
def create_task (st : Store) (now : Nat) (p : RawCreate) :
    Except ApiError (Task × Store) :=
  match p.title with
  | none => .error (.validation (createErrors p))
  | some t =>
    if createErrors p = [] then
      let row : Task :=
        { id := st.nextId
          title := t
          description := p.description
          status := p.status.getD "pending"
          priority := p.priority.getD 1
          created_at := now
          updated_at := now }
      .ok (row, ⟨st.tasks ++ [row], st.nextId + 1⟩)
    else .error (.validation (createErrors p))

/-- `GET /tasks` (`list_tasks` in `main.py`): start from `select(Task)`,
add `.where(Task.status == status_filter)` only when `if status_filter:`
is truthy (Python: `None` and `""` are falsy), then `.offset(skip)` and
`.limit(limit)`.  The handler performs no validation, so it always
succeeds. -/
def list_tasks (st : Store) (skip limit : Nat) (status_filter : Option String) :
    List Task :=
  let chosen :=
    match status_filter with
    | some s => if s.isEmpty then st.tasks
                else st.tasks.filter (fun t => t.status == s)
    | none => st.tasks
  (chosen.drop skip).take limit

/-- `GET /tasks/{task_id}` (`read_task` in `main.py`): `session.get` by
primary key; 404 with the id-naming detail when absent. -/
def read_task (st : Store) (task_id : Nat) : Except ApiError Task :=
  match st.tasks.find? (fun t => t.id == task_id) with
  | none => .error (.notFound (notFoundMsg task_id))
  | some t => .ok t

/-- The field-merge of `update_task`: `task_update.dict(exclude_unset=True)`
followed by `setattr` for each provided field, then
`db_task.updated_at = datetime.utcnow()`. -/
def applyUpdate (t : Task) (u : RawUpdate) (now : Nat) : Task :=
  { t with
    title := u.title.getD t.title
    description := match u.description with
      | some d => some d
      | none => t.description
    status := u.status.getD t.status
    priority := u.priority.getD t.priority
    updated_at := now }

/-- `PUT /tasks/{task_id}` (`update_task` in `main.py`): Pydantic validates
the body against `TaskUpdate` before the handler runs (so a 422 preempts the
404); the handler fetches by primary key, 404s when absent, otherwise merges
the provided fields, stamps `updated_at`, and commits the row in place. -/
def update_task (st : Store) (now : Nat) (task_id : Nat) (u : RawUpdate) :
    Except ApiError (Task × Store) :=
  if updateErrors u = [] then
    match st.tasks.find? (fun t => t.id == task_id) with
    | none => .error (.notFound (notFoundMsg task_id))
    | some t =>
      let t' := applyUpdate t u now
      .ok (t', ⟨st.tasks.map (fun r => if r.id == task_id then t' else r),
                st.nextId⟩)
  else .error (.validation (updateErrors u))

/-- `DELETE /tasks/{task_id}` (`delete_task` in `main.py`): fetch by primary
key, 404 when absent, otherwise `session.delete` removes that row and
commits (204, no body — the result is just the new store). -/
def delete_task (st : Store) (task_id : Nat) : Except ApiError Store :=
  match st.tasks.find? (fun t => t.id == task_id) with
  | none => .error (.notFound (notFoundMsg task_id))
  | some _ => .ok ⟨st.tasks.filter (fun t => t.id != task_id), st.nextId⟩

/-- Response of `GET /stats`. -/
structure Stats where
  total : Nat
  pending : Nat
  in_progress : Nat
  completed : Nat
deriving DecidableEq, Repr

/-- `GET /stats` (`get_stats` in `main.py`): four independent selects — all
rows, and the rows with each of the three statuses — each reported by its
length. -/
def get_stats (st : Store) : Stats :=
  { total := st.tasks.length
    pending := (st.tasks.filter (fun t => t.status == "pending")).length
    in_progress := (st.tasks.filter (fun t => t.status == "in_progress")).length
    completed := (st.tasks.filter (fun t => t.status == "completed")).length }

/-- The store an HTTP create request leaves behind: the committed store on
success, the untouched store when validation rejected the request. -/
def afterCreate (st : Store) (now : Nat) (p : RawCreate) : Store :=
  match create_task st now p with
  | .ok r => r.2
  | .error _ => st

/-- The store an HTTP update request leaves behind. -/
def afterUpdate (st : Store) (now : Nat) (task_id : Nat) (u : RawUpdate) :
    Store :=
  match update_task st now task_id u with
  | .ok r => r.2
  | .error _ => st

/-- The store an HTTP delete request leaves behind. -/
def afterDelete (st : Store) (task_id : Nat) : Store :=
  match delete_task st task_id with
  | .ok st' => st'
  | .error _ => st

/-- Stores reachable through the API, tagged with the clock value of the last
mutating request; requests run at nondecreasing clock values
(`datetime.utcnow` is taken to be monotone across the requests of a run). -/
inductive ReachableAt : Store → Nat → Prop where
  | init : ReachableAt initialStore 0
  | create {st : Store} {tm now : Nat} {p : RawCreate} {t : Task} {st' : Store} :
      ReachableAt st tm → tm ≤ now → create_task st now p = .ok (t, st') →
      ReachableAt st' now
  | update {st : Store} {tm now task_id : Nat} {u : RawUpdate} {t : Task}
      {st' : Store} :
      ReachableAt st tm → tm ≤ now → update_task st now task_id u = .ok (t, st') →
      ReachableAt st' now
  | delete {st : Store} {tm task_id : Nat} {st' : Store} :
      ReachableAt st tm → delete_task st task_id = .ok st' →
      ReachableAt st' tm

/-- A store reachable through some sequence of API requests. -/
def Reachable (st : Store) : Prop := ∃ tm, ReachableAt st tm

/-- Spec-side restatement of the create-payload constraints, written from the
spec's words ("title required 1–200 chars; description optional ≤2000 chars;
status optional, must match the enumeration if present; priority optional
integer 1–3"), to be compared with the code-side `createErrors`. -/
def CreateValid (p : RawCreate) : Prop :=
  (∃ t, p.title = some t ∧ 1 ≤ t.length ∧ t.length ≤ 200) ∧
  (∀ d, p.description = some d → d.length ≤ 2000) ∧
  (∀ s, p.status = some s → s ∈ validStatuses) ∧
  (∀ n, p.priority = some n → 1 ≤ n ∧ n ≤ 3)

/-- Spec-side listing pipeline, written from the spec's words: take the
records in creation (insertion) order, restrict to records whose status
equals `status_filter` when one is given, drop the first `skip`, return at
most `limit` of the remainder. -/
def listSpec (st : Store) (skip limit : Nat) (status_filter : Option String) :
    List Task :=
  let chosen : List Task :=
    match status_filter with
    | some s => st.tasks.filter (fun t => t.status == s)
    | none => st.tasks
  (chosen.drop skip).take limit

/-- A concrete row used to instantiate theorems: the store
`exStore` below holds exactly this row. -/
def exRow : Task :=
  { id := 1, title := "Write code", description := none,
    status := "pending", priority := 1, created_at := 10, updated_at := 10 }

/-- A concrete one-row store, reachable by a single create at time 10. -/
def exStore : Store := ⟨[exRow], 2⟩

/-- The create payload that produces `exRow`. -/
def exCreate : RawCreate := ⟨some "Write code", none, none, none⟩

/-- The spec-side payload constraints coincide with an empty Pydantic error
list. -/
theorem createValid_iff_nil (p : RawCreate) :
    CreateValid p ↔ createErrors p = [] := by
  obtain ⟨t?, d?, s?, n?⟩ := p
  unfold CreateValid createErrors
  cases t? <;> cases d? <;> cases s? <;> cases n? <;>
    simp <;> intros <;> omega

/-- A validated update payload only ever carries a legal status value. -/
theorem updateErrors_nil_status (u : RawUpdate) (h : updateErrors u = [])
    (s : String) (hs : u.status = some s) : s ∈ validStatuses := by
  unfold updateErrors at h
  rw [hs] at h
  by_contra hmem
  simp [List.append_eq_nil, hmem] at h

/-- What a successful create did, read off from the handler. -/
theorem create_ok_facts {st : Store} {now : Nat} {p : RawCreate} {t : Task}
    {st' : Store} (h : create_task st now p = .ok (t, st')) :
    createErrors p = [] ∧
    st'.tasks = st.tasks ++ [t] ∧ st'.nextId = st.nextId + 1 ∧
    t.id = st.nextId ∧ t.created_at = now ∧ t.updated_at = now ∧
    t.status ∈ validStatuses := by
  unfold create_task at h
  split at h
  · exact absurd h (by simp)
  · rename_i ttl hT
    split at h
    · rename_i hE
      simp only [Except.ok.injEq, Prod.mk.injEq] at h
      obtain ⟨h1, h2⟩ := h
      subst h1; subst h2
      refine ⟨hE, rfl, rfl, rfl, rfl, rfl, ?_⟩
      cases hS : p.status with
      | none => simp [hS, validStatuses]
      | some s =>
        have hV := (createValid_iff_nil p).mpr hE
        simpa [hS] using hV.2.2.1 s hS
    · exact absurd h (by simp)

/-- What a successful update did, read off from the handler. -/
theorem update_ok_facts {st : Store} {now task_id : Nat} {u : RawUpdate}
    {t : Task} {st' : Store}
    (h : update_task st now task_id u = .ok (t, st')) :
    updateErrors u = [] ∧
    ∃ t0, st.tasks.find? (fun r => r.id == task_id) = some t0 ∧
      t = applyUpdate t0 u now ∧
      st'.tasks = st.tasks.map (fun r => if r.id == task_id then t else r) ∧
      st'.nextId = st.nextId := by
  unfold update_task at h
  split at h
  · rename_i hE
    split at h
    · exact absurd h (by simp)
    · rename_i t0 hF
      simp only [Except.ok.injEq, Prod.mk.injEq] at h
      obtain ⟨h1, h2⟩ := h
      refine ⟨hE, t0, hF, h1.symm, ?_, ?_⟩
      · rw [← h2, ← h1]
      · rw [← h2]
  · exact absurd h (by simp)

/-- What a successful delete did, read off from the handler. -/
theorem delete_ok_facts {st : Store} {task_id : Nat} {st' : Store}
    (h : delete_task st task_id = .ok st') :
    st'.tasks = st.tasks.filter (fun t => t.id != task_id) ∧
    st'.nextId = st.nextId := by
  unfold delete_task at h
  split at h
  · exact absurd h (by simp)
  · simp only [Except.ok.injEq] at h
    exact ⟨by rw [← h], by rw [← h]⟩

/-- Invariant of every reachable store: every record carries a legal status
and ordered timestamps, bounded by the clock of the last request. -/
theorem reachable_inv {st : Store} {tm : Nat} (h : ReachableAt st tm) :
    ∀ t ∈ st.tasks, t.status ∈ validStatuses ∧
      t.created_at ≤ t.updated_at ∧ t.updated_at ≤ tm := by
  induction h with
  | init => intro t ht; simp [initialStore] at ht
  | create hR hle hok ih =>
    obtain ⟨hE, hTasks, _, _, hc, hu, hs⟩ := create_ok_facts hok
    intro r hr
    rw [hTasks] at hr
    rcases List.mem_append.mp hr with hr | hr
    · obtain ⟨h1, h2, h3⟩ := ih r hr
      exact ⟨h1, h2, le_trans h3 hle⟩
    · simp only [List.mem_singleton] at hr
      subst hr
      exact ⟨hs, by omega, by omega⟩
  | @update st1 tm1 now1 tid1 u1 t1 st1' hR hle hok ih =>
    obtain ⟨hE, t0, hF, ht, hTasks, _⟩ := update_ok_facts hok
    intro r hr
    rw [hTasks] at hr
    obtain ⟨r0, hr0, hfr⟩ := List.mem_map.mp hr
    obtain ⟨hs0, hc0, hu0⟩ := ih t0 (List.mem_of_find?_eq_some hF)
    by_cases hid : (r0.id == tid1) = true
    · rw [if_pos hid] at hfr
      subst hfr
      subst ht
      simp only [applyUpdate]
      refine ⟨?_, by omega, le_refl _⟩
      cases hS : u1.status with
      | none => simpa [hS] using hs0
      | some s => simpa [hS] using updateErrors_nil_status u1 hE s hS
    · rw [if_neg hid] at hfr
      subst hfr
      obtain ⟨h1, h2, h3⟩ := ih r0 hr0
      exact ⟨h1, h2, le_trans h3 hle⟩
  | delete hR hok ih =>
    obtain ⟨hTasks, _⟩ := delete_ok_facts hok
    intro r hr
    rw [hTasks] at hr
    exact ih r (List.mem_filter.mp hr).1

/-- When every record carries one of the three statuses, the three filtered
counts partition the list. -/
theorem three_status_sum (l : List Task)
    (h : ∀ t ∈ l, t.status ∈ validStatuses) :
    (l.filter (fun t => t.status == "pending")).length +
    (l.filter (fun t => t.status == "in_progress")).length +
    (l.filter (fun t => t.status == "completed")).length = l.length := by
  induction l with
  | nil => simp
  | cons a l ih =>
    have ha := h a (List.mem_cons_self a l)
    have hl := ih (fun t ht => h t (List.mem_cons_of_mem a ht))
    simp only [validStatuses, List.mem_cons, List.not_mem_nil, or_false] at ha
    rcases ha with ha | ha | ha <;>
      simp [List.filter_cons, ha, hl] <;> omega

/-- After filtering a key out, no record with that key can be found. -/
theorem find?_filter_self (l : List Task) (i : Nat) :
    (l.filter (fun t => t.id != i)).find? (fun t => t.id == i) = none := by
  rw [List.find?_eq_none]
  intro x hx
  have hxi := (List.mem_filter.mp hx).2
  simp only [bne_iff_ne, ne_eq] at hxi
  simp [hxi]

/-- Filtering a key out does not disturb lookups of any other key. -/
theorem find?_filter_ne (l : List Task) (i j : Nat) (hij : j ≠ i) :
    (l.filter (fun t => t.id != i)).find? (fun t => t.id == j) =
      l.find? (fun t => t.id == j) := by
  induction l with
  | nil => rfl
  | cons a l ih =>
    by_cases haj : a.id = j
    · simp [List.filter_cons, List.find?_cons, haj, hij]
    · by_cases hai : a.id = i
      · have hbe : (i == j) = false := by simp [Ne.symm hij]
        simp [List.filter_cons, List.find?_cons, haj, hai, hbe, ih]
      · simp [List.filter_cons, List.find?_cons, haj, hai, ih]

/-- Replacing the (present) record of a key in place makes lookups of that
key return the replacement. -/
theorem find?_map_update (l : List Task) (i : Nat) (t0 t' : Task)
    (ht' : (t'.id == i) = true)
    (hex : l.find? (fun r => r.id == i) = some t0) :
    (l.map (fun r => if r.id == i then t' else r)).find?
      (fun r => r.id == i) = some t' := by
  induction l with
  | nil => simp at hex
  | cons a l ih =>
    by_cases hai : (a.id == i) = true
    · rw [List.map_cons, if_pos hai]
      simp [List.find?_cons, ht']
    · have hf : (a.id == i) = false := eq_false_of_ne_true hai
      simp only [List.find?_cons, hf] at hex
      simp only [List.map_cons, List.find?_cons, hf, Bool.false_eq_true,
        if_false]
      exact ih hex

/-- `exStore` is reachable: one valid create against the fresh table. -/
theorem reach_exStore : ReachableAt exStore 10 :=
  @ReachableAt.create initialStore 0 10 exCreate exRow exStore
    ReachableAt.init (Nat.zero_le 10) rfl

/-- Claim C1: a successful update of a stored task's id merges exactly the
provided payload fields — each of title, description, status, priority takes
the payload value when present and keeps the stored value when absent — while
id and created_at are unchanged, updated_at is set to the request time even
for an empty payload, and the stored record equals the returned one. -/
theorem claim_C1_update_merge (st : Store) (now task_id : Nat) (u : RawUpdate)
    (t t' : Task) (st' : Store)
    (hpre : st.tasks.find? (fun r => r.id == task_id) = some t)
    (hok : update_task st now task_id u = .ok (t', st')) :
    t'.title = u.title.getD t.title ∧
    t'.description = (match u.description with
      | some d => some d
      | none => t.description) ∧
    t'.status = u.status.getD t.status ∧
    t'.priority = u.priority.getD t.priority ∧
    t'.id = t.id ∧ t'.created_at = t.created_at ∧ t'.updated_at = now ∧
    st'.tasks.find? (fun r => r.id == task_id) = some t' := by
  obtain ⟨hE, t0, hF, ht, hTasks, _⟩ := update_ok_facts hok
  rw [hpre] at hF
  obtain rfl : t = t0 := Option.some.inj hF
  subst ht
  refine ⟨rfl, rfl, rfl, rfl, rfl, rfl, rfl, ?_⟩
  rw [hTasks]
  have hpt := List.find?_some hpre
  exact find?_map_update st.tasks task_id t (applyUpdate t u now) hpt hpre

/-- Witness for C1: updating the one-task store with a status-only payload
yields a stored record whose status is the payload's. -/
theorem claim_C1_witness :
    (⟨1, "Write code", none, "completed", 1, 10, 20⟩ : Task).status =
      "completed" :=
  (claim_C1_update_merge exStore 20 1 ⟨none, none, some "completed", none⟩
    exRow ⟨1, "Write code", none, "completed", 1, 10, 20⟩
    ⟨[⟨1, "Write code", none, "completed", 1, 10, 20⟩], 2⟩
    rfl rfl).2.2.1

/-- Claim C2: on every reachable store the stats counts satisfy
pending + in_progress + completed = total, since every stored record's
status is one of the three enumerated values. -/
theorem claim_C2_stats_sum (st : Store) (h : Reachable st) :
    (get_stats st).pending + (get_stats st).in_progress +
      (get_stats st).completed = (get_stats st).total := by
  obtain ⟨tm, hR⟩ := h
  simp only [get_stats]
  exact three_status_sum st.tasks (fun t ht => (reachable_inv hR t ht).1)

/-- Witness for C2: the stats sum check on the concrete reachable store. -/
theorem claim_C2_witness :
    (get_stats exStore).pending + (get_stats exStore).in_progress +
      (get_stats exStore).completed = (get_stats exStore).total :=
  claim_C2_stats_sum exStore ⟨10, reach_exStore⟩

/-- Claim C3: for a request whose status_filter is absent or one of the three
enumerated values, listing equals the spec pipeline — records in insertion
order, filter applied before pagination, `skip` dropped, at most `limit`
returned (and it always succeeds, so an empty result is a valid response). -/
theorem claim_C3_list_semantics (st : Store) (skip lim : Nat)
    (status_filter : Option String)
    (h : status_filter = none ∨
      ∃ s, status_filter = some s ∧ s ∈ validStatuses) :
    list_tasks st skip lim status_filter =
      listSpec st skip lim status_filter := by
  rcases h with rfl | ⟨s, rfl, hs⟩
  · rfl
  · simp only [validStatuses, List.mem_cons, List.not_mem_nil, or_false] at hs
    rcases hs with rfl | rfl | rfl <;> rfl

/-- Witness for C3: listing the concrete store with the "pending" filter
matches the spec pipeline. -/
theorem claim_C3_witness :
    list_tasks exStore 0 100 (some "pending") =
      listSpec exStore 0 100 (some "pending") :=
  claim_C3_list_semantics exStore 0 100 (some "pending")
    (Or.inr ⟨"pending", rfl, by decide⟩)

/-- Claim C4: create accepts exactly the payloads meeting every field
constraint; a violating payload fails with a validation error naming the
offending fields and leaves the store unchanged, and each kind of violation
(missing/oversized/empty title, oversized description, bad status,
out-of-range priority) is reported under its field's name. -/
theorem claim_C4_create_validation (st : Store) (now : Nat) (p : RawCreate) :
    (CreateValid p → ∃ t st', create_task st now p = .ok (t, st') ∧
        st'.tasks = st.tasks ++ [t]) ∧
    (¬ CreateValid p →
        create_task st now p = .error (.validation (createErrors p)) ∧
        createErrors p ≠ [] ∧ afterCreate st now p = st) ∧
    (p.title = none → "title" ∈ createErrors p) ∧
    (∀ t, p.title = some t → t.length < 1 ∨ 200 < t.length →
        "title" ∈ createErrors p) ∧
    (∀ d, p.description = some d → 2000 < d.length →
        "description" ∈ createErrors p) ∧
    (∀ s, p.status = some s → s ∉ validStatuses →
        "status" ∈ createErrors p) ∧
    (∀ n, p.priority = some n → n < 1 ∨ 3 < n →
        "priority" ∈ createErrors p) := by
  refine ⟨?_, ?_, ?_, ?_, ?_, ?_, ?_⟩
  · intro hV
    have hE := (createValid_iff_nil p).mp hV
    obtain ⟨⟨ttl, hT, -, -⟩, -, -, -⟩ := hV
    refine ⟨⟨st.nextId, ttl, p.description, p.status.getD "pending",
        p.priority.getD 1, now, now⟩,
      ⟨st.tasks ++ [⟨st.nextId, ttl, p.description, p.status.getD "pending",
        p.priority.getD 1, now, now⟩], st.nextId + 1⟩, ?_, rfl⟩
    simp [create_task, hT, hE]
  · intro hNV
    have hE : createErrors p ≠ [] :=
      fun hc => hNV ((createValid_iff_nil p).mpr hc)
    have herr : create_task st now p =
        .error (.validation (createErrors p)) := by
      cases hT : p.title with
      | none => simp [create_task, hT]
      | some ttl => simp [create_task, hT, hE]
    exact ⟨herr, hE, by simp [afterCreate, herr]⟩
  · intro h
    simp [createErrors, h]
  · intro t hT hbad
    simp [createErrors, hT]
    exact Or.inl (by omega)
  · intro d hD hbad
    simp [createErrors, hD, if_pos hbad]
  · intro s hS hbad
    simp [createErrors, hS, if_neg hbad]
  · intro n hN hbad
    simp [createErrors, hN, if_pos hbad]

/-- Witness for C4: the payload with an empty title and priority 5 is
rejected with both offending fields named. -/
theorem claim_C4_witness :
    create_task exStore 11 ⟨some "", none, none, some 5⟩ =
      .error (.validation ["title", "priority"]) := by
  have h := (claim_C4_create_validation exStore 11
    ⟨some "", none, none, some 5⟩).2.1
  have hNV : ¬ CreateValid ⟨some "", none, none, some 5⟩ := by
    rintro ⟨⟨t, ht, h1, -⟩, -, -, -⟩
    obtain rfl : "" = t := Option.some.inj ht
    exact absurd h1 (by decide)
  rw [(h hNV).1]
  rfl

/-- Counterexample to claim C5: the handler performs no parameter
validation — the request with status_filter "bogus", a value outside the
enumeration, is executed and succeeds with the empty list instead of being
rejected. -/
theorem claim_C5_counterexample :
    "bogus" ∉ validStatuses ∧
    list_tasks exStore 0 100 (some "bogus") = [] :=
  ⟨by decide, rfl⟩

/-- Claim C5 as amended: the list operation itself enforces no parameter
constraints (it is total); a request whose non-empty status_filter lies
outside the three enumerated values is executed as an equality filter and
returns the empty list on any store whose records all carry valid
statuses. -/
theorem claim_C5_amended (st : Store) (skip lim : Nat) (s : String)
    (hs : s ∉ validStatuses) (hne : s ≠ "")
    (hst : ∀ t ∈ st.tasks, t.status ∈ validStatuses) :
    list_tasks st skip lim (some s) = [] := by
  have hempty : s.isEmpty = false := by
    cases he : s.isEmpty
    · rfl
    · exact absurd ((String.isEmpty_iff s).mp he) hne
  have hfilter : st.tasks.filter (fun t => t.status == s) = [] := by
    rw [List.filter_eq_nil_iff]
    intro t ht
    simp only [beq_iff_eq]
    exact fun he => hs (he ▸ hst t ht)
  simp [list_tasks, hempty, hfilter]

/-- Witness for the amended C5: a "nope" filter over the concrete store is
executed and returns the empty list. -/
theorem claim_C5_witness : list_tasks exStore 3 7 (some "nope") = [] :=
  claim_C5_amended exStore 3 7 "nope" (by decide) (by decide) (by decide)

/-- Claim C6: when no record matches the id, get-by-id, (validated) update,
and delete all fail with a 404 whose detail names the requested id, and the
store is unchanged. -/
theorem claim_C6_notfound (st : Store) (now i : Nat) (u : RawUpdate)
    (habs : st.tasks.find? (fun t => t.id == i) = none)
    (hval : updateErrors u = []) :
    read_task st i = .error (.notFound (notFoundMsg i)) ∧
    update_task st now i u = .error (.notFound (notFoundMsg i)) ∧
    delete_task st i = .error (.notFound (notFoundMsg i)) ∧
    afterUpdate st now i u = st ∧
    afterDelete st i = st ∧
    notFoundMsg i = "Task with ID " ++ toString i ++ " not found" := by
  have h1 : read_task st i = .error (.notFound (notFoundMsg i)) := by
    simp [read_task, habs]
  have h2 : update_task st now i u = .error (.notFound (notFoundMsg i)) := by
    simp [update_task, hval, habs]
  have h3 : delete_task st i = .error (.notFound (notFoundMsg i)) := by
    simp [delete_task, habs]
  exact ⟨h1, h2, h3, by simp [afterUpdate, h2], by simp [afterDelete, h3], rfl⟩

/-- Witness for C6: id 99 is absent from the concrete store and reading it
404s with the id-naming message. -/
theorem claim_C6_witness :
    read_task exStore 99 = .error (.notFound (notFoundMsg 99)) :=
  (claim_C6_notfound exStore 11 99 ⟨none, none, none, none⟩ rfl rfl).1

/-- Claim C7: deleting an existing id succeeds and removes exactly that
record — the id afterwards reads as not-found, every other id's lookup is
unchanged, id assignment is untouched, and no record outside the original
store appears. -/
theorem claim_C7_delete_isolated (st : Store) (i : Nat) (t : Task)
    (hpre : st.tasks.find? (fun r => r.id == i) = some t) :
    delete_task st i = .ok (afterDelete st i) ∧
    read_task (afterDelete st i) i = .error (.notFound (notFoundMsg i)) ∧
    (∀ j, j ≠ i → (afterDelete st i).tasks.find? (fun r => r.id == j) =
      st.tasks.find? (fun r => r.id == j)) ∧
    (afterDelete st i).nextId = st.nextId ∧
    (∀ r ∈ (afterDelete st i).tasks, r ∈ st.tasks) := by
  have hdel : delete_task st i =
      .ok ⟨st.tasks.filter (fun r => r.id != i), st.nextId⟩ := by
    simp [delete_task, hpre]
  have haft : afterDelete st i =
      ⟨st.tasks.filter (fun r => r.id != i), st.nextId⟩ := by
    simp [afterDelete, hdel]
  rw [haft]
  refine ⟨by rw [hdel], ?_, ?_, rfl, ?_⟩
  · have hnone := find?_filter_self st.tasks i
    simp [read_task, hnone]
  · intro j hj
    exact find?_filter_ne st.tasks i j hj
  · intro r hr
    exact (List.mem_filter.mp hr).1

/-- Witness for C7: deleting id 1 from the concrete one-task store
succeeds. -/
theorem claim_C7_witness :
    delete_task exStore 1 = .ok (afterDelete exStore 1) :=
  (claim_C7_delete_isolated exStore 1 exRow rfl).1

/-- Claim C8: creating with only a (valid) title persists a record with
status "pending", priority 1, and no description. -/
theorem claim_C8_create_defaults (st : Store) (now : Nat) (ttl : String)
    (h1 : 1 ≤ ttl.length) (h2 : ttl.length ≤ 200) :
    ∃ st', create_task st now ⟨some ttl, none, none, none⟩ =
      .ok (⟨st.nextId, ttl, none, "pending", 1, now, now⟩, st') ∧
      st'.tasks = st.tasks ++
        [⟨st.nextId, ttl, none, "pending", 1, now, now⟩] := by
  have hE : createErrors ⟨some ttl, none, none, none⟩ = [] := by
    simp [createErrors]
    omega
  refine ⟨⟨st.tasks ++ [⟨st.nextId, ttl, none, "pending", 1, now, now⟩],
    st.nextId + 1⟩, ?_, rfl⟩
  simp [create_task, hE]

/-- Witness for C8: creating "Write code" with only a title on the fresh
store yields the defaulted record. -/
theorem claim_C8_witness :
    ∃ st', create_task initialStore 10 ⟨some "Write code", none, none, none⟩ =
      .ok (⟨1, "Write code", none, "pending", 1, 10, 10⟩, st') ∧
      st'.tasks = initialStore.tasks ++
        [⟨1, "Write code", none, "pending", 1, 10, 10⟩] :=
  claim_C8_create_defaults initialStore 10 "Write code" (by decide) (by decide)

/-- Claim C9: on every reachable store, every record satisfies
created_at ≤ updated_at (creation sets both to the same clock; updates
rewrite updated_at to the — monotone — current clock). -/
theorem claim_C9_timestamps (st : Store) (h : Reachable st) :
    ∀ t ∈ st.tasks, t.created_at ≤ t.updated_at := by
  obtain ⟨tm, hR⟩ := h
  exact fun t ht => (reachable_inv hR t ht).2.1

/-- Witness for C9: the record of the concrete reachable store has ordered
timestamps. -/
theorem claim_C9_witness : exRow.created_at ≤ exRow.updated_at :=
  claim_C9_timestamps exStore ⟨10, reach_exStore⟩ exRow (by decide)

/-- Claim C10: a supplied-but-empty status_filter is falsy in the handler's
`if status_filter:` guard, so the listing is exactly the unfiltered one. -/
theorem claim_C10_empty_filter (st : Store) (skip lim : Nat) :
    list_tasks st skip lim (some "") = list_tasks st skip lim none := rfl

end TaskApi
